import Mathlib

/-!
Shallow embedding of the `projectionmapping` package
(`projectionmapping/__init__.py`): the deformable warp grid
(`ProjectionMappingGrid`), the inverse-bilinear fragment shader `FS`, and the
calibration persistence / keyboard dispatch of `ProjectionMapping`.

Modelling conventions:
* Python floats are modelled as exact rationals (`ℚ`); the claims under
  scrutiny are about exact values, orders and counts, not rounding.
* A Python slice `v[i:i+2]` becomes `(v.drop i).take 2` (it never raises and
  may be short, exactly like the Python slice).
* List-building loops (`line_vertices += ...`) become `flatMap` over
  `List.range`, in the source's iteration order.
* `calibration` is `Option (List ℚ)`: `none` is Python `None`; the source
  tests `if calibration:` (truthiness), so an empty list also takes the
  default-lattice arm.
* Exceptions that the source lets escape are modelled by returning the state
  at the moment control leaves the method together with an `Option LoadError`.
-/

/-- Python slice `v[i:i + 2]` on the `line_vertices` / `calibration` lists. -/
def slice2 (v : List ℚ) (i : Nat) : List ℚ :=
  (v.drop i).take 2

/-- The `else` arm of `build_mapping`'s point loop (source line 192):
`line_vertices += [col / ncols, row / nrows, 0, 0]` for `row` in
`range(rows + 1)`, `col` in `range(cols + 1)` — the default evenly spaced
lattice. -/
def lvDefault (rows cols : Nat) : List ℚ :=
  (List.range (rows + 1)).flatMap fun row =>
    (List.range (cols + 1)).flatMap fun col =>
      [(col : ℚ) / (cols : ℚ), (row : ℚ) / (rows : ℚ), 0, 0]

/-- The `if calibration:` arm of `build_mapping`'s point loop (source lines
187–190): `i = 2 * (col + row * (cols + 1));
line_vertices += calibration[i:i + 2]; line_vertices += [0, 0]`.
Note the source performs no length check on `calibration`: a short list just
yields short slices. -/
def lvFromCalib (rows cols : Nat) (cal : List ℚ) : List ℚ :=
  (List.range (rows + 1)).flatMap fun row =>
    (List.range (cols + 1)).flatMap fun col =>
      slice2 cal (2 * (col + row * (cols + 1))) ++ [0, 0]

/-- `ProjectionMappingGrid.build_mapping` (lines 177–199): the
`line_vertices` it stores.  `none` models Python `None`; an empty list is
falsy in Python, so it also takes the default arm. -/
def build_mapping_lv (rows cols : Nat) (calibration : Option (List ℚ)) : List ℚ :=
  match calibration with
  | none => lvDefault rows cols
  | some cal => if cal.isEmpty then lvDefault rows cols else lvFromCalib rows cols cal

/-- `build_mapping` (lines 193–197): the `line_indices` grid-line topology,
`i = col + row * (cols + 1); line_indices += [i, i + 1]; [i, i + (cols + 1)]`
for `row` in `range(rows)`, `col` in `range(cols)`. -/
def build_mapping_li (rows cols : Nat) : List Nat :=
  (List.range rows).flatMap fun row =>
    (List.range cols).flatMap fun col =>
      [col + row * (cols + 1), col + row * (cols + 1) + 1,
       col + row * (cols + 1), col + row * (cols + 1) + (cols + 1)]

/-- `ProjectionMappingGrid.get_calibration` (lines 201–206):
`for i in range(0, len(v), 4): calibration += v[i:i + 2]`. -/
def get_calibration (v : List ℚ) : List ℚ :=
  (List.range ((v.length + 3) / 4)).flatMap fun k => slice2 v (4 * k)

/-- The `(x, y)` pair stored for control point `k` — `line_vertices` holds
4 floats per point, the pair then two padding zeros. -/
def pointAt (v : List ℚ) (k : Nat) : List ℚ :=
  slice2 v (4 * k)

/-- One cell's `corners` list in `build_grid` (source lines 222–230): the four
`line_vertices[i:i + 2]` slices at the cell's four lattice corners. -/
def cell_corners (cols : Nat) (lv : List ℚ) (col row : Nat) : List ℚ :=
  slice2 lv (4 * (col + row * (cols + 1))) ++
  slice2 lv (4 * (col + (row + 1) * (cols + 1))) ++
  slice2 lv (4 * (1 + col + row * (cols + 1))) ++
  slice2 lv (4 * (1 + col + (row + 1) * (cols + 1)))

/-- `ProjectionMappingGrid.build_grid` vertex buffer (lines 208–247): per
cell, four vertices of 14 floats each — own corner (2), all four corners (8),
`data = [x, y, cols, rows]` (4) with `x = col / cols`, `y = row / rows`;
`col` outer loop, `row` inner loop. -/
def build_grid_vertices (rows cols : Nat) (lv : List ℚ) : List ℚ :=
  (List.range cols).flatMap fun col =>
    (List.range rows).flatMap fun row =>
      let corners := cell_corners cols lv col row
      let data : List ℚ :=
        [(col : ℚ) / (cols : ℚ), (row : ℚ) / (rows : ℚ), (cols : ℚ), (rows : ℚ)]
      corners.take 2 ++ corners ++ data ++
      (corners.drop 2).take 2 ++ corners ++ data ++
      (corners.drop 4).take 2 ++ corners ++ data ++
      (corners.drop 6).take 2 ++ corners ++ data

/-- `build_grid` index buffer (lines 249–255): the running counter `i`
advances by 4 per cell, `col` outer / `row` inner, so at cell `(col, row)` it
is `4 * (row + col * rows)`; two triangles per cell. -/
def build_grid_indices (rows cols : Nat) : List Nat :=
  (List.range cols).flatMap fun col =>
    (List.range rows).flatMap fun row =>
      [4 * (row + col * rows), 4 * (row + col * rows) + 3,
       4 * (row + col * rows) + 1, 4 * (row + col * rows),
       4 * (row + col * rows) + 2, 4 * (row + col * rows) + 3]

/-- `Wedge2D` from the fragment shader `FS` (lines 33–35):
`v.x * w.y - v.y * w.x`. -/
def Wedge2D (v w : ℚ × ℚ) : ℚ :=
  v.1 * w.2 - v.2 * w.1

/-- The fragment shader's `main` (FS lines 37–59), up to the computed
`uv` — returned as `(uv.x, uv.y)`, i.e. `(u, v)`.  `sqrtFn` stands for GLSL
`sqrt`; it is consulted only in the non-degenerate arm. -/
def fragment_uv (sqrtFn : ℚ → ℚ) (b1 b2 b3 q : ℚ × ℚ) : ℚ × ℚ :=
  let A := Wedge2D b2 b3
  let B := Wedge2D b3 q - Wedge2D b1 b2
  let C := Wedge2D b1 q
  let v : ℚ :=
    if |A| < 1 / 1000 then -C / B
    else 1 / 2 * (-B + sqrtFn (B * B - 4 * A * C)) / A
  let denom : ℚ × ℚ := (b1.1 + v * b3.1, b1.2 + v * b3.2)
  let u : ℚ :=
    if |denom.1| > |denom.2| then (q.1 - b2.1 * v) / denom.1
    else (q.2 - b2.2 * v) / denom.2
  (u, v)

/-- The vertex-shader stage feeding the fragment solve (VS lines 100–104):
`q = vPosition - vQuad0`, `b1 = vQuad1 - vQuad0`, `b2 = vQuad2 - vQuad0`,
`b3 = vQuad0 - vQuad1 - vQuad2 + vQuad3`. -/
def quad_uv (sqrtFn : ℚ → ℚ) (q0 q1 q2 q3 p : ℚ × ℚ) : ℚ × ℚ :=
  fragment_uv sqrtFn (q1 - q0) (q2 - q0) (q0 - q1 - q2 + q3) (p - q0)

/-- The mutable state of a `ProjectionMappingGrid` that the claims concern:
grid dimensions, the control-point store `line_vertices` (+ the overlay
`line_indices`), and the mesh buffers `vertices` / `indices`. -/
structure GridState where
  rows : Nat
  cols : Nat
  line_vertices : List ℚ
  line_indices : List Nat
  vertices : List ℚ
  indices : List Nat

/-- `ProjectionMappingGrid.build_mapping` as a state update. -/
def GridState.build_mapping (g : GridState) (calibration : Option (List ℚ)) : GridState :=
  { g with
    line_vertices := build_mapping_lv g.rows g.cols calibration
    line_indices := build_mapping_li g.rows g.cols }

/-- `ProjectionMappingGrid.build_grid` as a state update (the mesh buffers are
recomputed from the current `rows`, `cols`, `line_vertices`). -/
def GridState.build_grid (g : GridState) : GridState :=
  { g with
    vertices := build_grid_vertices g.rows g.cols g.line_vertices
    indices := build_grid_indices g.rows g.cols }

/-- `ProjectionMappingGrid.set_vertice` (lines 285–289): writes
`line_vertices[i * 4] = sx; line_vertices[i * 4 + 1] = sy` in place and then
calls `self.build_grid()` itself. -/
def GridState.set_vertice (g : GridState) (i : Nat) (sx sy : ℚ) : GridState :=
  GridState.build_grid
    { g with line_vertices := (g.line_vertices.set (4 * i) sx).set (4 * i + 1) sy }

/-- A parsed calibration JSON object; a `none` field models a missing key
(Python raises `KeyError` on access). -/
structure CalibData where
  rows : Option Nat
  cols : Option Nat
  calibration : Option (List ℚ)

/-- The exceptions that can escape `load_calibration` after the `try` block. -/
inductive LoadError where
  | missingRows
  | missingCols
  | missingCalibration
deriving DecidableEq

/-- `ProjectionMapping.load_calibration` (lines 410–424).  `file = none`
models an unreadable or unparsable file — the only failures the `try` block
catches (it prints and returns; the grid is untouched).  A parsed object is
then consumed by `rows = data["rows"]`, `cols = data["cols"]`,
`build_mapping(calibration=data["calibration"])`, `build_grid()` in that
order, with no further guarding: a missing key raises after the earlier
assignments already happened.  The result is the state at the moment control
leaves the method, paired with the escaped exception if any. -/
def load_calibration (file : Option CalibData) (g : GridState) :
    GridState × Option LoadError :=
  match file with
  | none => (g, none)
  | some data =>
    match data.rows with
    | none => (g, some LoadError.missingRows)
    | some r =>
      let g1 := { g with rows := r }
      match data.cols with
      | none => (g1, some LoadError.missingCols)
      | some c =>
        let g2 := { g1 with cols := c }
        match data.calibration with
        | none => (g2, some LoadError.missingCalibration)
        | some cal => ((g2.build_mapping (some cal)).build_grid, none)

/-- The `ProjectionMapping` session state touched by the keyboard handler:
the grid, whether the calibration overlay is attached
(`wid_calibration.parent`), and the help flag. -/
structure SessionState where
  grid : GridState
  armed : Bool
  show_help : Bool

/-- `ProjectionMapping.bind_keyboard.on_key_down` (lines 439–467) together
with `toggle_projection`: scancode 283 toggles the overlay; every other key is
ignored unless the overlay is armed; 32 toggles help; 120/99/118/98 adjust
`rows`/`cols` (decrements clamped at 1 by `max(1, ... - 1)`) and 114 adjusts
nothing, after which all five rebuild `line_vertices` with no calibration and
rebuild the mesh; 115 saves (grid untouched); 108 runs `load_calibration` on
the current file content. -/
def on_key_down (file : Option CalibData) (s : SessionState) (scancode : Nat) :
    SessionState :=
  if scancode = 283 then { s with armed := !s.armed }
  else if !s.armed then s
  else if scancode = 32 then { s with show_help := !s.show_help }
  else if scancode = 120 ∨ scancode = 99 ∨ scancode = 118 ∨ scancode = 98 ∨
      scancode = 114 then
    let g := s.grid
    let g1 :=
      if scancode = 120 then { g with rows := max 1 (g.rows - 1) }
      else if scancode = 99 then { g with rows := g.rows + 1 }
      else if scancode = 118 then { g with cols := max 1 (g.cols - 1) }
      else if scancode = 98 then { g with cols := g.cols + 1 }
      else g
    { s with grid := (g1.build_mapping none).build_grid }
  else if scancode = 115 then s
  else if scancode = 108 then { s with grid := (load_calibration file s.grid).1 }
  else s

/-- A concrete 1×1 grid whose `line_vertices` equal the default lattice for
`rows = cols = 1` (written as integer literals), with mesh buffers built from
it — a fully rebuilt, consistent state used by concrete witnesses. -/
def lvW : List ℚ :=
  [0, 0, 0, 0, 1, 0, 0, 0, 0, 1, 0, 0, 1, 1, 0, 0]

/-- A consistent concrete `GridState` over `lvW`. -/
def gW : GridState :=
  { rows := 1, cols := 1, line_vertices := lvW,
    line_indices := build_mapping_li 1 1,
    vertices := build_grid_vertices 1 1 lvW,
    indices := build_grid_indices 1 1 }

/-- A concrete armed session over a 1×2 grid whose points are not the default
lattice (every pair is `(7, 8)`), used by keyboard-command witnesses. -/
def sW : SessionState :=
  { grid :=
      { rows := 1, cols := 2,
        line_vertices := [7, 8, 0, 0, 7, 8, 0, 0, 7, 8, 0, 0,
                          7, 8, 0, 0, 7, 8, 0, 0, 7, 8, 0, 0],
        line_indices := build_mapping_li 1 2,
        vertices := [], indices := [] },
    armed := true, show_help := true }

/-- A parsed calibration file that has a `rows` entry but no `cols` entry. -/
def fileW : CalibData :=
  { rows := some 3, cols := none, calibration := none }

/-- Pointwise congruence for `flatMap` over the members of a list. -/
theorem flatMap_congr_mem {α β : Type} {l : List α} {f g : α → List β}
    (h : ∀ a ∈ l, f a = g a) : l.flatMap f = l.flatMap g := by
  induction l with
  | nil => rfl
  | cons a t ih =>
    rw [List.flatMap_cons, List.flatMap_cons, h a (by simp),
      ih fun x hx => h x (by simp [hx])]

/-- Length of a `flatMap` whose chunks all have the same length. -/
theorem length_flatMap_const {α β : Type} (l : List α) (c : Nat) (f : α → List β)
    (hf : ∀ a ∈ l, (f a).length = c) : (l.flatMap f).length = l.length * c := by
  rw [List.length_flatMap, List.map_congr_left (g := fun _ => c) (by simpa using hf),
    List.map_const', List.sum_replicate, smul_eq_mul]

/-- Dropping a whole number of constant-size chunks from a `flatMap`. -/
theorem flatMap_drop_chunks {α β : Type} (f : α → List β) (c : Nat) :
    ∀ (i : Nat) (l : List α), (∀ a ∈ l, (f a).length = c) →
      (l.flatMap f).drop (c * i) = (l.drop i).flatMap f := by
  intro i
  induction i with
  | zero => intro l _; simp
  | succ m ih =>
    intro l hl
    cases l with
    | nil => simp
    | cons a t =>
      rw [List.flatMap_cons, List.drop_succ_cons,
        show c * (m + 1) = (f a).length + c * m by rw [hl a (by simp)]; ring,
        List.drop_append, ih t fun x hx => hl x (by simp [hx])]

/-- Reindexing of the source's row-major double loops: iterating `r` then `c`
with flat index `c + r * b` is iterating the flat index over `range (a * b)`. -/
theorem flatMap_range_mul {β : Type} (g : Nat → List β) :
    ∀ (a b : Nat),
      (List.range a).flatMap
        (fun r => (List.range b).flatMap fun c => g (c + r * b)) =
      (List.range (a * b)).flatMap g := by
  intro a
  induction a with
  | zero => intro b; simp
  | succ m ih =>
    intro b
    rw [List.range_succ, List.flatMap_append, ih, Nat.succ_mul, List.range_add,
      List.flatMap_append, List.flatMap_map]
    congr 1
    simp only [List.flatMap_cons, List.flatMap_nil, List.append_nil]
    exact flatMap_congr_mem fun c _ => by rw [Nat.add_comm]

/-- A slice `v[i:i+2]` has its full two elements when it fits. -/
theorem slice2_length_of_le (v : List ℚ) (i : Nat) (h : i + 2 ≤ v.length) :
    (slice2 v i).length = 2 := by
  simp [slice2]; omega

/-- `get_calibration` on a buffer made of 4-float chunks extracts the first
two floats of every chunk. -/
theorem get_calibration_flatMap4 (n : Nat) (f : Nat → List ℚ)
    (hf : ∀ k < n, (f k).length = 4) :
    get_calibration ((List.range n).flatMap f) =
      (List.range n).flatMap fun k => (f k).take 2 := by
  have hmem : ∀ a ∈ List.range n, (f a).length = 4 :=
    fun a ha => hf a (List.mem_range.mp ha)
  have hlen : ((List.range n).flatMap f).length = 4 * n := by
    rw [length_flatMap_const _ 4 f hmem, List.length_range]; ring
  unfold get_calibration
  rw [hlen, show (4 * n + 3) / 4 = n by omega]
  refine flatMap_congr_mem fun k hk => ?_
  have hkn := List.mem_range.mp hk
  unfold slice2
  rw [flatMap_drop_chunks f 4 k _ hmem,
    List.drop_eq_getElem_cons (by simpa using hkn), List.getElem_range,
    List.flatMap_cons, List.take_append_of_le_length (by rw [hf k hkn]; omega)]

/-- Reading a list back in consecutive 2-element slices reassembles it. -/
theorem chunks2_reassemble :
    ∀ (n : Nat) (cal : List ℚ), cal.length = 2 * n →
      (List.range n).flatMap (fun k => slice2 cal (2 * k)) = cal := by
  intro n
  induction n with
  | zero =>
    intro cal h
    simp only [List.range_zero, List.flatMap_nil]
    exact (List.length_eq_zero.mp (by omega)).symm
  | succ m ih =>
    intro cal h
    rcases cal with _ | ⟨a, _ | ⟨b, rest⟩⟩
    · simp at h
    · simp at h; omega
    · rw [List.range_succ_eq_map, List.flatMap_cons, List.flatMap_map]
      have h1 : slice2 (a :: b :: rest) (2 * 0) = [a, b] := rfl
      have h2 : (List.range m).flatMap
          (fun k => slice2 (a :: b :: rest) (2 * Nat.succ k)) =
          (List.range m).flatMap (fun k => slice2 rest (2 * k)) := by
        refine flatMap_congr_mem fun k _ => ?_
        show slice2 (a :: b :: rest) (2 * (k + 1)) = slice2 rest (2 * k)
        unfold slice2
        rw [show 2 * (k + 1) = 2 * k + 1 + 1 by ring, List.drop_succ_cons,
          List.drop_succ_cons]
      rw [h1, h2, ih rest (by simp at h; omega)]
      rfl

/-- C1: for every grid state with `rows, cols ≥ 1` and a well-formed
`line_vertices` of length `4 * (rows + 1) * (cols + 1)`, rebuilding with the
exported calibration is the identity on the stored control points:
`build_mapping(rows, cols, get_calibration())` reproduces the same `(x, y)`
pairs, element for element, in the same row-major order. -/
theorem C1_roundtrip (rows cols : Nat) (lv : List ℚ)
    (hr : 1 ≤ rows) (hc : 1 ≤ cols)
    (hlen : lv.length = 4 * ((rows + 1) * (cols + 1))) :
    get_calibration (build_mapping_lv rows cols (some (get_calibration lv))) =
      get_calibration lv := by
  have hterm : ∀ k < (rows + 1) * (cols + 1), (slice2 lv (4 * k)).length = 2 :=
    fun k hk => slice2_length_of_le lv (4 * k) (by omega)
  have hrepr : get_calibration lv =
      (List.range ((rows + 1) * (cols + 1))).flatMap fun k => slice2 lv (4 * k) := by
    unfold get_calibration
    rw [hlen, show (4 * ((rows + 1) * (cols + 1)) + 3) / 4 = (rows + 1) * (cols + 1)
      by omega]
  have hcallen : (get_calibration lv).length = 2 * ((rows + 1) * (cols + 1)) := by
    rw [hrepr, length_flatMap_const _ 2 _
      (fun a ha => hterm a (List.mem_range.mp ha)), List.length_range]
    ring
  have hNpos : 0 < (rows + 1) * (cols + 1) := Nat.mul_pos (by omega) (by omega)
  have hne : ¬ ((get_calibration lv).isEmpty = true) := by
    rw [List.isEmpty_iff]
    intro h
    rw [h] at hcallen
    rw [List.length_nil] at hcallen
    omega
  have hbranch : build_mapping_lv rows cols (some (get_calibration lv)) =
      lvFromCalib rows cols (get_calibration lv) := by
    simp only [build_mapping_lv]
    rw [if_neg hne]
  rw [hbranch]
  have hre : lvFromCalib rows cols (get_calibration lv) =
      (List.range ((rows + 1) * (cols + 1))).flatMap
        fun k => slice2 (get_calibration lv) (2 * k) ++ [0, 0] :=
    flatMap_range_mul (fun k => slice2 (get_calibration lv) (2 * k) ++ [0, 0])
      (rows + 1) (cols + 1)
  rw [hre, get_calibration_flatMap4 ((rows + 1) * (cols + 1)) _ (fun k hk => by
    rw [List.length_append,
      slice2_length_of_le (get_calibration lv) (2 * k) (by omega)]
    rfl)]
  rw [flatMap_congr_mem (g := fun k => slice2 (get_calibration lv) (2 * k))
    (fun k hk => by
      have hkn := List.mem_range.mp hk
      have h2 : (slice2 (get_calibration lv) (2 * k)).length = 2 :=
        slice2_length_of_le _ _ (by omega)
      rw [List.take_append_of_le_length (by omega),
        List.take_of_length_le (by omega)]),
    chunks2_reassemble ((rows + 1) * (cols + 1)) _ hcallen]

/-- C7: `build_mapping` with no calibration produces the default lattice —
the control point at index `row * (cols + 1) + col` is
`(col / cols, row / rows)` for every `row ≤ rows`, `col ≤ cols`. -/
theorem C7_default_lattice (rows cols row col : Nat) (hr : 1 ≤ rows)
    (hc : 1 ≤ cols) (hrow : row ≤ rows) (hcol : col ≤ cols) :
    pointAt (build_mapping_lv rows cols none) (row * (cols + 1) + col) =
      [(col : ℚ) / (cols : ℚ), (row : ℚ) / (rows : ℚ)] := by
  have hinner_len : ∀ r : Nat, ∀ c_ ∈ List.range (cols + 1),
      ([(c_ : ℚ) / (cols : ℚ), (r : ℚ) / (rows : ℚ), 0, 0] : List ℚ).length = 4 :=
    fun r c_ _ => rfl
  have houter_len : ∀ r ∈ List.range (rows + 1),
      ((List.range (cols + 1)).flatMap fun c_ =>
        ([(c_ : ℚ) / (cols : ℚ), (r : ℚ) / (rows : ℚ), 0, 0] : List ℚ)).length =
        4 * (cols + 1) := by
    intro r _
    rw [length_flatMap_const _ 4 _ (hinner_len r), List.length_range]
    ring
  show slice2 (lvDefault rows cols) (4 * (row * (cols + 1) + col)) = _
  unfold slice2 lvDefault
  rw [show 4 * (row * (cols + 1) + col) = 4 * (cols + 1) * row + 4 * col by ring,
    ← List.drop_drop,
    flatMap_drop_chunks _ (4 * (cols + 1)) row _ houter_len,
    List.drop_eq_getElem_cons (l := List.range (rows + 1)) (n := row)
      (by rw [List.length_range]; omega),
    List.getElem_range, List.flatMap_cons,
    List.drop_append_of_le_length (by
      rw [houter_len row (by rw [List.mem_range]; omega)]; omega),
    flatMap_drop_chunks _ 4 col _ (hinner_len row),
    List.drop_eq_getElem_cons (l := List.range (cols + 1)) (n := col)
      (by rw [List.length_range]; omega),
    List.getElem_range, List.flatMap_cons, List.append_assoc,
    List.take_append_of_le_length (by simp)]
  rfl

/-- Each cell's `corners` list has all four full pairs when `line_vertices`
is well-formed. -/
theorem cell_corners_length (rows cols : Nat) (lv : List ℚ)
    (hlen : lv.length = 4 * ((rows + 1) * (cols + 1)))
    (col row : Nat) (hcol : col < cols) (hrow : row < rows) :
    (cell_corners cols lv col row).length = 8 := by
  have hQ : 1 + col + (row + 1) * (cols + 1) < (rows + 1) * (cols + 1) := by
    have h2 : (row + 1 + 1) * (cols + 1) ≤ (rows + 1) * (cols + 1) :=
      Nat.mul_le_mul_right _ (by omega)
    have h3 : (row + 1) * (cols + 1) + (cols + 1) = (row + 1 + 1) * (cols + 1) := by
      ring
    omega
  have hP : (row + 1) * (cols + 1) = row * (cols + 1) + (cols + 1) := by ring
  unfold cell_corners
  rw [List.length_append, List.length_append, List.length_append,
    slice2_length_of_le lv (4 * (col + row * (cols + 1))) (by omega),
    slice2_length_of_le lv (4 * (col + (row + 1) * (cols + 1))) (by omega),
    slice2_length_of_le lv (4 * (1 + col + row * (cols + 1))) (by omega),
    slice2_length_of_le lv (4 * (1 + col + (row + 1) * (cols + 1))) (by omega)]

/-- `build_grid` emits 4 vertices of 14 floats per cell. -/
theorem build_grid_vertices_length (rows cols : Nat) (lv : List ℚ)
    (hlen : lv.length = 4 * ((rows + 1) * (cols + 1))) :
    (build_grid_vertices rows cols lv).length = 14 * (4 * (rows * cols)) := by
  unfold build_grid_vertices
  rw [length_flatMap_const _ (rows * 56) _ (fun col hcol => by
    rw [length_flatMap_const _ 56 _ (fun row hrow => by
      have h8 : (cell_corners cols lv col row).length = 8 :=
        cell_corners_length rows cols lv hlen col row
          (List.mem_range.mp hcol) (List.mem_range.mp hrow)
      simp only [List.length_append, List.length_take, List.length_drop, h8]
      norm_num), List.length_range]), List.length_range]
  ring

/-- `build_grid` emits 6 indices (two triangles) per cell. -/
theorem build_grid_indices_length (rows cols : Nat) :
    (build_grid_indices rows cols).length = 6 * (rows * cols) := by
  unfold build_grid_indices
  rw [length_flatMap_const _ (rows * 6) _ (fun col _ => by
    rw [length_flatMap_const _ 6 _ (fun row _ => by rfl), List.length_range]),
    List.length_range]
  ring

/-- Every `build_grid` index addresses one of the `4 * rows * cols`
vertices. -/
theorem build_grid_indices_bound (rows cols : Nat) :
    ∀ ix ∈ build_grid_indices rows cols, ix < 4 * (rows * cols) := by
  intro ix hix
  unfold build_grid_indices at hix
  rw [List.mem_flatMap] at hix
  obtain ⟨col, hcol, hix⟩ := hix
  rw [List.mem_flatMap] at hix
  obtain ⟨row, hrow, hix⟩ := hix
  rw [List.mem_range] at hcol
  rw [List.mem_range] at hrow
  have hcell : row + col * rows + 1 ≤ rows * cols := by
    have h1 : (col + 1) * rows ≤ cols * rows := Nat.mul_le_mul_right _ (by omega)
    have h2 : (col + 1) * rows = col * rows + rows := by ring
    have h3 : rows * cols = cols * rows := Nat.mul_comm _ _
    omega
  simp only [List.mem_cons, List.not_mem_nil, or_false] at hix
  rcases hix with h | h | h | h | h | h <;> omega

/-- Length of the calibration arm of `build_mapping` for an arbitrary (even
mismatched) calibration list: the `4 * (rows + 1) * (cols + 1)` floats only
come out when the calibration has at least `2 * (rows + 1) * (cols + 1)`
entries; a shorter one silently yields a shorter buffer. -/
theorem lvFromCalib_length (rows cols : Nat) (cal : List ℚ) :
    (lvFromCalib rows cols cal).length =
      2 * ((rows + 1) * (cols + 1)) +
        min cal.length (2 * ((rows + 1) * (cols + 1))) := by
  have hre : lvFromCalib rows cols cal =
      (List.range ((rows + 1) * (cols + 1))).flatMap
        fun k => slice2 cal (2 * k) ++ [0, 0] :=
    flatMap_range_mul (fun k => slice2 cal (2 * k) ++ [0, 0]) (rows + 1) (cols + 1)
  rw [hre]
  generalize (rows + 1) * (cols + 1) = n
  induction n with
  | zero => simp
  | succ m ih =>
    rw [List.range_succ, List.flatMap_append, List.length_append,
      List.flatMap_cons, List.flatMap_nil, List.append_nil, ih,
      List.length_append]
    have hs : (slice2 cal (2 * m)).length = min 2 (cal.length - 2 * m) := by
      simp [slice2]
    rw [hs]
    simp only [List.length_cons, List.length_nil]
    omega

/-- `set_vertice`'s two in-place writes update exactly point `i`. -/
theorem pointAt_set_pair_self (lv : List ℚ) (i : Nat) (x y : ℚ)
    (h : 4 * i + 1 < lv.length) :
    pointAt ((lv.set (4 * i) x).set (4 * i + 1) y) i = [x, y] := by
  unfold pointAt slice2
  refine List.ext_getElem? fun n => ?_
  rw [List.getElem?_take]
  by_cases h0 : n = 0
  · subst h0
    rw [if_pos (by omega), List.getElem?_drop]
    simp only [Nat.add_zero]
    rw [List.getElem?_set, if_neg (by omega), List.getElem?_set, if_pos rfl,
      if_pos (by omega)]
    rfl
  by_cases h1 : n = 1
  · subst h1
    rw [if_pos (by omega), List.getElem?_drop, List.getElem?_set, if_pos rfl,
      if_pos (by rw [List.length_set]; omega)]
    rfl
  · rw [if_neg (by omega)]
    refine (List.getElem?_eq_none ?_).symm
    simp only [List.length_cons, List.length_nil]
    omega

/-- `set_vertice`'s two in-place writes leave every other point alone. -/
theorem pointAt_set_pair_other (lv : List ℚ) (i j : Nat) (x y : ℚ) (hij : j ≠ i) :
    pointAt ((lv.set (4 * i) x).set (4 * i + 1) y) j = pointAt lv j := by
  unfold pointAt slice2
  refine List.ext_getElem? fun n => ?_
  rw [List.getElem?_take, List.getElem?_take]
  by_cases hn : n < 2
  · rw [if_pos hn, if_pos hn, List.getElem?_drop, List.getElem?_drop,
      List.getElem?_set, if_neg (by omega), List.getElem?_set, if_neg (by omega)]
  · rw [if_neg hn, if_neg hn]

/-- The default lattice always has its full `4 * (rows + 1) * (cols + 1)`
floats. -/
theorem lvDefault_length (rows cols : Nat) :
    (lvDefault rows cols).length = 4 * ((rows + 1) * (cols + 1)) := by
  unfold lvDefault
  rw [length_flatMap_const _ (4 * (cols + 1)) _ (fun r _ => by
    rw [length_flatMap_const _ 4 _ (fun c _ => by rfl), List.length_range]
    ring), List.length_range]
  ring

/-- On a parallelogram cell (`b3 = 0`) with independent edges, the fragment
solve takes the degenerate arm and inverts the (here linear) bilinear map
exactly. -/
theorem fragment_uv_parallelogram (sq : ℚ → ℚ) (b1 b2 : ℚ × ℚ) (u v : ℚ)
    (hW : Wedge2D b1 b2 ≠ 0) :
    fragment_uv sq b1 b2 (0, 0) (u * b1.1 + v * b2.1, u * b1.2 + v * b2.2) =
      (u, v) := by
  obtain ⟨b11, b12⟩ := b1
  obtain ⟨b21, b22⟩ := b2
  simp only [Wedge2D, fragment_uv] at hW ⊢
  norm_num
  have hW2 : b12 * b21 - b11 * b22 ≠ 0 := by
    intro h0
    apply hW
    linarith
  have hv : (b12 * (u * b11 + v * b21) - b11 * (u * b12 + v * b22)) /
      (b12 * b21 - b11 * b22) = v := by
    field_simp
    ring
  rw [hv]
  refine ⟨?_, rfl⟩
  split_ifs with h1
  · have hb11 : b11 ≠ 0 := by
      intro h0
      rw [h0] at h1
      simp at h1
      exact absurd (lt_of_le_of_lt (abs_nonneg b12) h1) (by simp)
    field_simp
    ring
  · have hb12 : b12 ≠ 0 := by
      intro h0
      rw [h0] at h1
      push_neg at h1
      simp at h1
      apply hW
      rw [h0, h1]
      ring
    field_simp
    ring

/-- C1 witness: the round-trip at a concrete 1×1 grid state. -/
theorem C1_roundtrip_witness :
    get_calibration (build_mapping_lv 1 1 (some (get_calibration lvW))) =
      get_calibration lvW :=
  C1_roundtrip 1 1 lvW (by decide) (by decide) (by decide)

/-- C2: on every parallelogram cell (`b3 = (0, 0)`) the pixel mapper's
quadratic coefficient is `0`, so it takes the degenerate arm
(`abs A < 1/1000`); with `b1`, `b2` independent it recovers the exact inverse
of the bilinear map — for `q = u * b1 + v * b2` it returns exactly `(u, v)`;
in particular for `b1 = (1,0)`, `b2 = (0,1)`, `q = (0.3, 0.4)` it returns
`(0.3, 0.4)`, and on the unit-square quad at `p = (0.5, 0.5)` it returns
`(0.5, 0.5)`. -/
theorem C2_pixel_mapper_degenerate :
    (∀ b2 : ℚ × ℚ, |Wedge2D b2 (0, 0)| < 1 / 1000)
    ∧ (∀ (sq : ℚ → ℚ) (b1 b2 : ℚ × ℚ) (u v : ℚ), Wedge2D b1 b2 ≠ 0 →
        fragment_uv sq b1 b2 (0, 0)
          (u * b1.1 + v * b2.1, u * b1.2 + v * b2.2) = (u, v))
    ∧ fragment_uv (fun x => x) (1, 0) (0, 1) (0, 0) (3 / 10, 2 / 5) =
        (3 / 10, 2 / 5)
    ∧ quad_uv (fun x => x) (0, 0) (0, 1) (1, 0) (1, 1) (1 / 2, 1 / 2) =
        (1 / 2, 1 / 2) := by
  refine ⟨fun b2 => by simp [Wedge2D], fragment_uv_parallelogram, ?_, ?_⟩
  · norm_num [fragment_uv, Wedge2D]
  · norm_num [quad_uv, fragment_uv, Wedge2D, Prod.mk_sub_mk, Prod.mk_add_mk]

/-- C2 witness: the symbolic inverse applied on the concrete parallelogram
`b1 = (2, 1)`, `b2 = (1, 3)` at `(u, v) = (1/3, 1/5)`. -/
theorem C2_pixel_mapper_degenerate_witness :
    fragment_uv (fun x => x) (2, 1) (1, 3) (0, 0) (13 / 15, 14 / 15) =
      (1 / 3, 1 / 5) := by
  have h := C2_pixel_mapper_degenerate.2.1 (fun x => x) (2, 1) (1, 3)
    (1 / 3) (1 / 5) (by norm_num [Wedge2D])
  norm_num at h
  exact h

/-- A well-formed `line_vertices` for a 1×2 grid, used by the C3 witness. -/
def lv24 : List ℚ :=
  [0, 0, 0, 0, 1, 0, 0, 0, 2, 0, 0, 0,
   0, 1, 0, 0, 1, 1, 0, 0, 2, 1, 0, 0]

/-- C3: for `rows, cols ≥ 1` and a well-formed `line_vertices`, `build_grid`
produces exactly `4 * rows * cols` vertices (14 floats each: own corner, all
four cell corners, the cell texture origin and the extent) and exactly
`6 * rows * cols` indices — two triangles per cell — every index below
`4 * rows * cols`. -/
theorem C3_build_grid_counts (rows cols : Nat) (lv : List ℚ)
    (hr : 1 ≤ rows) (hc : 1 ≤ cols)
    (hlen : lv.length = 4 * ((rows + 1) * (cols + 1))) :
    (build_grid_vertices rows cols lv).length = 14 * (4 * (rows * cols))
    ∧ (build_grid_indices rows cols).length = 6 * (rows * cols)
    ∧ ∀ ix ∈ build_grid_indices rows cols, ix < 4 * (rows * cols) :=
  ⟨build_grid_vertices_length rows cols lv hlen,
   build_grid_indices_length rows cols,
   build_grid_indices_bound rows cols⟩

/-- C3 witness: the counts at a concrete 1×2 grid. -/
theorem C3_build_grid_counts_witness :
    (build_grid_vertices 1 2 lv24).length = 14 * (4 * (1 * 2))
    ∧ (build_grid_indices 1 2).length = 6 * (1 * 2) :=
  ⟨(C3_build_grid_counts 1 2 lv24 (by decide) (by decide) (by decide)).1,
   (C3_build_grid_counts 1 2 lv24 (by decide) (by decide) (by decide)).2.1⟩

/-- C4 counterexample: loading a parsed file that has `rows` but no `cols`
raises an uncaught `KeyError` after `rows` was already reassigned — the call
fails yet the in-memory grid differs from the state before the call, so load
is not all-or-nothing. -/
theorem C4_counterexample :
    (load_calibration (some fileW) gW).2.isSome = true
    ∧ (load_calibration (some fileW) gW).1.rows ≠ gW.rows := by
  decide

/-- C4 as amended: only a file-open or JSON-parse failure is caught and leaves
the grid exactly as it was; a parsed object with `rows` present but `cols`
missing raises an uncaught `KeyError` with `rows` already reassigned — a
partial application of the loaded data. -/
theorem C4_load_error_handling (g : GridState) (r : Nat) (d : CalibData)
    (hrows : d.rows = some r) (hcols : d.cols = none) :
    load_calibration none g = (g, none)
    ∧ load_calibration (some d) g =
        ({ g with rows := r }, some LoadError.missingCols) := by
  refine ⟨rfl, ?_⟩
  simp only [load_calibration, hrows, hcols]

/-- C4 witness: the amended behaviour at the concrete grid `gW` and file
`fileW`. -/
theorem C4_load_error_handling_witness :
    load_calibration none gW = (gW, none)
    ∧ load_calibration (some fileW) gW =
        ({ gW with rows := 3 }, some LoadError.missingCols) :=
  C4_load_error_handling gW 3 fileW rfl rfl

/-- C5 counterexample: `build_mapping` with a length-1 calibration on a 1×1
grid (expected length 8) does not fail — it completes and silently stores a
9-float `line_vertices`. -/
theorem C5_counterexample :
    build_mapping_lv 1 1 (some [(5 : ℚ)]) = [5, 0, 0, 0, 0, 0, 0, 0, 0]
    ∧ ([(5 : ℚ)]).length ≠ 2 * ((1 + 1) * (1 + 1)) := by
  decide

/-- C5 as amended: `build_mapping` performs no length validation — for any
nonempty calibration it completes, producing
`2 * (rows + 1) * (cols + 1) + min (length, 2 * (rows + 1) * (cols + 1))`
floats: a too-long calibration has its extra entries ignored and a too-short
one silently yields a short buffer instead of an invalid-argument error. -/
theorem C5_no_length_validation (rows cols : Nat) (cal : List ℚ)
    (hne : cal ≠ []) :
    (build_mapping_lv rows cols (some cal)).length =
      2 * ((rows + 1) * (cols + 1)) +
        min cal.length (2 * ((rows + 1) * (cols + 1))) := by
  have h : ¬ (cal.isEmpty = true) := by
    rw [List.isEmpty_iff]
    exact hne
  simp only [build_mapping_lv]
  rw [if_neg h]
  exact lvFromCalib_length rows cols cal

/-- C5 witness: the no-validation length formula at the concrete mismatched
input of the counterexample. -/
theorem C5_no_length_validation_witness :
    (build_mapping_lv 1 1 (some [(5 : ℚ)])).length =
      2 * ((1 + 1) * (1 + 1)) +
        min ([(5 : ℚ)]).length (2 * ((1 + 1) * (1 + 1))) :=
  C5_no_length_validation 1 1 [(5 : ℚ)] (by decide)

/-- C6 counterexample: the public `build_mapping` with a length-1 calibration
on a 1×1 grid leaves `line_vertices` with 9 floats instead of the invariant's
`4 * (rows + 1) * (cols + 1) = 16` — the points-count invariant is not
preserved by every public operation. -/
theorem C6_counterexample :
    (build_mapping_lv 1 1 (some [(5 : ℚ)])).length ≠ 4 * ((1 + 1) * (1 + 1)) := by
  decide

/-- C6 as amended: the points-count invariant
`line_vertices.length = 4 * (rows + 1) * (cols + 1)` is established by
`build_mapping` without calibration and with a nonempty calibration of the
matching length `2 * (rows + 1) * (cols + 1)`, and preserved by
`set_vertice`, by a failed (unreadable-file) load, and by every armed
keyboard grid command; only `build_mapping` with a mismatched calibration
(reachable through an unvalidated loaded file) breaks it. -/
theorem C6_invariant :
    ∀ (rows cols : Nat) (cal : List ℚ) (g : GridState) (i : Nat) (x y : ℚ)
      (file : Option CalibData) (s : SessionState) (sc : Nat),
    (build_mapping_lv rows cols none).length = 4 * ((rows + 1) * (cols + 1))
    ∧ (cal ≠ [] → cal.length = 2 * ((rows + 1) * (cols + 1)) →
        (build_mapping_lv rows cols (some cal)).length =
          4 * ((rows + 1) * (cols + 1)))
    ∧ (g.set_vertice i x y).line_vertices.length = g.line_vertices.length
    ∧ (load_calibration none g).1 = g
    ∧ (s.armed = true →
        (sc = 120 ∨ sc = 99 ∨ sc = 118 ∨ sc = 98 ∨ sc = 114) →
        (on_key_down file s sc).grid.line_vertices.length =
          4 * (((on_key_down file s sc).grid.rows + 1) *
            ((on_key_down file s sc).grid.cols + 1))) := by
  intro rows cols cal g i x y file s sc
  refine ⟨lvDefault_length rows cols, ?_, ?_, rfl, ?_⟩
  · intro h1 h2
    have h : ¬ (cal.isEmpty = true) := by
      rw [List.isEmpty_iff]
      exact h1
    simp only [build_mapping_lv]
    rw [if_neg h, lvFromCalib_length, h2, min_self]
    ring
  · show ((g.line_vertices.set (4 * i) x).set (4 * i + 1) y).length =
      g.line_vertices.length
    rw [List.length_set, List.length_set]
  · intro harmed hsc
    rcases hsc with h | h | h | h | h <;> subst h <;>
      simp [on_key_down, harmed, GridState.build_mapping, GridState.build_grid,
        build_mapping_lv, lvDefault_length]

/-- C6 witness: the invariant at a matching-length calibration and at the
armed row-decrement command on the concrete session `sW`. -/
theorem C6_invariant_witness :
    (build_mapping_lv 1 1 (some [(1 : ℚ), 2, 3, 4, 5, 6, 7, 8])).length =
      4 * ((1 + 1) * (1 + 1))
    ∧ (on_key_down none sW 120).grid.line_vertices.length =
        4 * (((on_key_down none sW 120).grid.rows + 1) *
          ((on_key_down none sW 120).grid.cols + 1)) :=
  ⟨(C6_invariant 1 1 [(1 : ℚ), 2, 3, 4, 5, 6, 7, 8] gW 0 0 0 none sW 120).2.1
      (by decide) (by decide),
   (C6_invariant 1 1 [(1 : ℚ), 2, 3, 4, 5, 6, 7, 8] gW 0 0 0 none sW 120).2.2.2.2
      rfl (Or.inl rfl)⟩

/-- C7 witness: the default lattice point at `rows = cols = 2`,
`row = col = 1`. -/
theorem C7_default_lattice_witness :
    pointAt (build_mapping_lv 2 2 none) (1 * (2 + 1) + 1) =
      [(1 : ℚ) / 2, (1 : ℚ) / 2] := by
  have h := C7_default_lattice 2 2 1 1 (by decide) (by decide) (by decide)
    (by decide)
  norm_num at h ⊢
  exact h

/-- C8: while armed, the row-decrement (scancode 120) and col-decrement
(scancode 118) commands clamp the dimension at 1 via `max(1, d - 1)`, leave
the other dimension alone, and — also in the clamped case — rebuild
`line_vertices` as the fresh default lattice, discarding prior calibrated
positions. -/
theorem C8_decrement_clamped (file : Option CalibData) (s : SessionState)
    (h : s.armed = true) :
    ((on_key_down file s 120).grid.rows = max 1 (s.grid.rows - 1)
      ∧ (on_key_down file s 120).grid.cols = s.grid.cols
      ∧ (on_key_down file s 120).grid.line_vertices =
          lvDefault (max 1 (s.grid.rows - 1)) s.grid.cols)
    ∧ ((on_key_down file s 118).grid.cols = max 1 (s.grid.cols - 1)
      ∧ (on_key_down file s 118).grid.rows = s.grid.rows
      ∧ (on_key_down file s 118).grid.line_vertices =
          lvDefault s.grid.rows (max 1 (s.grid.cols - 1)))
    ∧ (s.grid.rows = 1 → (on_key_down file s 120).grid.rows = 1)
    ∧ (s.grid.cols = 1 → (on_key_down file s 118).grid.cols = 1) := by
  refine ⟨?_, ?_, ?_, ?_⟩ <;>
    simp [on_key_down, h, GridState.build_mapping, GridState.build_grid,
      build_mapping_lv]
  · intro h1
    simp [h1]
  · intro h1
    simp [h1]

/-- C8 witness: row-decrement from `rows = 1` on the armed concrete session
`sW` keeps `rows = 1` and still replaces the calibrated points with the
default lattice. -/
theorem C8_decrement_clamped_witness :
    (on_key_down none sW 120).grid.rows = 1
    ∧ (on_key_down none sW 120).grid.line_vertices = lvDefault 1 2 :=
  ⟨(C8_decrement_clamped none sW rfl).2.2.1 rfl,
   (C8_decrement_clamped none sW rfl).1.2.2⟩

/-- C9 counterexample: `set_vertice` does trigger the mesh rebuild itself —
on the concrete consistent state `gW`, moving point 0 changes the mesh
vertex buffer within the very call. -/
theorem C9_counterexample :
    (gW.set_vertice 0 9 9).vertices ≠ gW.vertices := by
  decide

/-- C9 as amended: `set_vertice i x y` replaces exactly the stored
coordinates of control point `i` (all other points, `rows` and `cols`
unchanged) and then immediately rebuilds the mesh itself — it ends by calling
`build_grid`, so after the call the vertex/index buffers already equal the
rebuild from the updated points; no subsequent caller action is involved. -/
theorem C9_set_vertice_rebuilds (g : GridState) (i : Nat) (x y : ℚ)
    (h : 4 * i + 1 < g.line_vertices.length) :
    (g.set_vertice i x y).rows = g.rows
    ∧ (g.set_vertice i x y).cols = g.cols
    ∧ pointAt (g.set_vertice i x y).line_vertices i = [x, y]
    ∧ (∀ j, j ≠ i → pointAt (g.set_vertice i x y).line_vertices j =
        pointAt g.line_vertices j)
    ∧ (g.set_vertice i x y).vertices =
        build_grid_vertices g.rows g.cols (g.set_vertice i x y).line_vertices
    ∧ (g.set_vertice i x y).indices = build_grid_indices g.rows g.cols := by
  refine ⟨rfl, rfl, ?_, ?_, rfl, rfl⟩
  · exact pointAt_set_pair_self g.line_vertices i x y h
  · intro j hj
    exact pointAt_set_pair_other g.line_vertices i j x y hj

/-- C9 witness: the amended behaviour at `gW`, point 0, target `(9, 9)`. -/
theorem C9_set_vertice_rebuilds_witness :
    pointAt (gW.set_vertice 0 9 9).line_vertices 0 = [(9 : ℚ), 9]
    ∧ pointAt (gW.set_vertice 0 9 9).line_vertices 1 =
        pointAt gW.line_vertices 1 :=
  ⟨(C9_set_vertice_rebuilds gW 0 9 9 (by decide)).2.2.1,
   (C9_set_vertice_rebuilds gW 0 9 9 (by decide)).2.2.2.1 1 (by decide)⟩

/-- C10: the keyboard surface has a reset command on scancode 114 (key `r`):
while armed it leaves `rows` and `cols` unchanged but rebuilds the default
evenly spaced lattice and the mesh, discarding the calibrated point
positions. -/
theorem C10_reset_key (file : Option CalibData) (s : SessionState)
    (h : s.armed = true) :
    (on_key_down file s 114).grid.rows = s.grid.rows
    ∧ (on_key_down file s 114).grid.cols = s.grid.cols
    ∧ (on_key_down file s 114).grid.line_vertices =
        lvDefault s.grid.rows s.grid.cols
    ∧ (on_key_down file s 114).grid.vertices =
        build_grid_vertices s.grid.rows s.grid.cols
          (lvDefault s.grid.rows s.grid.cols)
    ∧ (on_key_down file s 114).grid.indices =
        build_grid_indices s.grid.rows s.grid.cols := by
  refine ⟨?_, ?_, ?_, ?_, ?_⟩ <;>
    simp [on_key_down, h, GridState.build_mapping, GridState.build_grid,
      build_mapping_lv]

/-- C10 witness: the reset key on the armed concrete session `sW` keeps the
1×2 dimensions and restores the default lattice. -/
theorem C10_reset_key_witness :
    (on_key_down none sW 114).grid.rows = 1
    ∧ (on_key_down none sW 114).grid.line_vertices = lvDefault 1 2 :=
  ⟨(C10_reset_key none sW rfl).1, (C10_reset_key none sW rfl).2.2.1⟩
